import Mathlib

/-!
Verification development for a mock of the Turso managed-database HTTP
surface.  The embedded definitions mirror the TypeScript source of the
repository: the Hrana value codec (functions convertHranaValue and
toHranaValue in server.ts), the statement resolver and executor
(executeStatement), the batch condition evaluator (checkCondition), the
pipeline handler (handlePipelineRequest), and the per-database SQL-id
storage and handle cache from db.ts.

Modelling conventions:
- JavaScript numbers are modelled as rationals; the check
  Number.isInteger corresponds to the denominator being 1.  String(x)
  on a bigint is the exact decimal rendering (intToDec below).
  String(x) on a whole-valued double follows the ECMAScript Number
  toString algorithm (jsWholeToString below): exact positional decimal
  below two to the 53, shortest round-tripping decimal at or above two
  to the 53, exponential notation from 1e21 on.  BigInt(s) on a wire
  integer payload is modelled by the parser decToInt, which accepts
  plain signed decimals and rejects exponential forms.
- Byte buffers are lists of naturals below 256; the Node base64
  encoding (Buffer.toString) and lenient base64 decoding (Buffer.from)
  are implemented directly as b64Encode and b64Decode.
- The embedded SQLite engine is an external collaborator; it is
  modelled as a record of state-passing operations (structure Engine)
  covering exec, prepared all and prepared run with positional or
  named parameters.  On failure the operations return an error message
  and the state is not threaded further.
- JavaScript Map objects are modelled as association lists preserving
  insertion order, matching Map.set and Map.delete semantics.
- The pipeline handler captures a reference to the per-database map
  once (const dbSqlStorage); after a close request deletes the global
  entry that reference is detached.  The pure model tracks this with
  an attached flag in LoopState.
-/

deriving instance DecidableEq for Except

/-- Lookup in an association list, mirroring Map.get. -/
def alGet {α β : Type} [DecidableEq α] (k : α) : List (α × β) → Option β
  | [] => none
  | (k2, v) :: rest => if k = k2 then some v else alGet k rest

/-- Insert or overwrite in an association list, mirroring Map.set:
an existing key keeps its position, a new key is appended. -/
def alSet {α β : Type} [DecidableEq α] (k : α) (v : β) : List (α × β) → List (α × β)
  | [] => [(k, v)]
  | (k2, v2) :: rest => if k = k2 then (k2, v) :: rest else (k2, v2) :: alSet k v rest

/-- Remove a key from an association list, mirroring Map.delete. -/
def alErase {α β : Type} [DecidableEq α] (k : α) : List (α × β) → List (α × β)
  | [] => []
  | (k2, v2) :: rest => if k = k2 then rest else (k2, v2) :: alErase k rest

/-- Distinct keys invariant of a JavaScript Map rendered as an
association list. -/
def keysNodup {α β : Type} (m : List (α × β)) : Prop := (m.map Prod.fst).Nodup

/-- Option-valued traversal of a list, mirroring a loop that stops at
the first failing element. -/
def mapOpt {α β : Type} (f : α → Option β) : List α → Option (List β)
  | [] => some []
  | a :: as =>
    match f a with
    | none => none
    | some b =>
      match mapOpt f as with
      | none => none
      | some bs => some (b :: bs)

/-- Except-valued traversal of a list, mirroring a loop whose body can
throw: the first failure aborts with that message. -/
def mapExcept {ε α β : Type} (f : α → Except ε β) : List α → Except ε (List β)
  | [] => .ok []
  | a :: as =>
    match f a with
    | .error e => .error e
    | .ok b =>
      match mapExcept f as with
      | .error e => .error e
      | .ok bs => .ok (b :: bs)

/-- Decimal digit to character, the rendering used by String on whole
numbers and bigints. -/
def digitToChar : Nat → Char
  | 0 => '0' | 1 => '1' | 2 => '2' | 3 => '3' | 4 => '4'
  | 5 => '5' | 6 => '6' | 7 => '7' | 8 => '8' | _ => '9'

/-- Character to decimal digit, the inverse used when parsing. -/
def charToDigit (c : Char) : Option Nat :=
  if c = '0' then some 0 else if c = '1' then some 1 else if c = '2' then some 2
  else if c = '3' then some 3 else if c = '4' then some 4 else if c = '5' then some 5
  else if c = '6' then some 6 else if c = '7' then some 7 else if c = '8' then some 8
  else if c = '9' then some 9 else none

/-- Little-endian decimal digits with explicit fuel (the fuel bounds
the recursion depth; any fuel at least the value itself is enough).
An executable twin of Nat.digits 10 that the kernel can evaluate. -/
def natDigitsAux : Nat → Nat → List Nat
  | 0, _ => []
  | _ + 1, 0 => []
  | fuel + 1, n + 1 => (n + 1) % 10 :: natDigitsAux fuel ((n + 1) / 10)

/-- Little-endian decimal digits of a natural number. -/
def natDigits (n : Nat) : List Nat := natDigitsAux n n

/-- Canonical decimal rendering of a natural number, as produced by
String on a nonnegative whole number below the exponential cutoff. -/
def natToDec (n : Nat) : String :=
  if n = 0 then "0" else String.mk (((natDigits n).map digitToChar).reverse)

/-- Parser for canonical decimal strings of naturals. -/
def decToNat (s : String) : Option Nat :=
  if s.data.isEmpty then none
  else (mapOpt charToDigit s.data).map (fun ds => Nat.ofDigits 10 ds.reverse)

/-- Canonical decimal rendering of an integer, as produced by String on
a bigint or a whole-valued number: a minus sign prefix for negatives. -/
def intToDec (i : Int) : String :=
  if i < 0 then String.mk ('-' :: (natToDec i.natAbs).data) else natToDec i.toNat

/-- Parser for decimal strings, modelling BigInt applied to a wire
integer payload: only an optional minus sign followed by plain digits
is accepted, so an exponentially rendered payload such as 1e+21
throws. -/
def decToInt (s : String) : Option Int :=
  match s.data with
  | [] => none
  | c :: rest =>
    if c = '-' then (decToNat (String.mk rest)).map (fun n => -(Int.ofNat n))
    else (decToNat s).map Int.ofNat

/-- Bit length of a natural number, with fuel (any fuel at least the
value is enough; only evaluated on representable doubles). -/
def bitlenAux : Nat → Nat → Nat
  | 0, _ => 0
  | _ + 1, 0 => 0
  | fuel + 1, n + 1 => bitlenAux fuel ((n + 1) / 2) + 1

def bitlen (n : Nat) : Nat := bitlenAux n n

/-- Number of factors of ten, with fuel. -/
def tenValAux : Nat → Nat → Nat
  | 0, _ => 0
  | _ + 1, 0 => 0
  | fuel + 1, n + 1 =>
    if (n + 1) % 10 = 0 then tenValAux fuel ((n + 1) / 10) + 1 else 0

def tenVal (n : Nat) : Nat := tenValAux n n

/-- Number of decimal digits. -/
def decDigits (n : Nat) : Nat := (natDigits n).length

/-- Membership of a candidate decimal value in the rounding interval
of a whole double.  All quantities are doubled so that the half-unit
interval radii stay integral: the interval around the double of value
n has upper radius hu2 over two and lower radius hl2 over two, and its
boundaries belong to the interval exactly when the mantissa is even
(round half to even). -/
def inRoundInterval (n hu2 hl2 : Nat) (mEven : Bool) (c : Nat) : Bool :=
  decide (2 * n - hl2 < 2 * c ∧ 2 * c < 2 * n + hu2)
    || (mEven && decide (2 * c = 2 * n - hl2 ∨ 2 * c = 2 * n + hu2))

/-- Nearest multiple of p inside the rounding interval, ties broken to
the even quotient as in the ECMAScript rendering algorithm. -/
def nearestContained (n hu2 hl2 : Nat) (mEven : Bool) (p : Nat) : Option Nat :=
  let c1 := n / p * p
  let c2 := c1 + p
  let ok1 := inRoundInterval n hu2 hl2 mEven c1
  let ok2 := inRoundInterval n hu2 hl2 mEven c2
  if ok1 && ok2 then
    if n - c1 < c2 - n then some c1
    else if c2 - n < n - c1 then some c2
    else if (c1 / p) % 2 = 0 then some c1 else some c2
  else if ok1 then some c1
  else if ok2 then some c2
  else none

/-- Search for the decimal with the most trailing zeros (fewest
significant digits) inside the rounding interval, trying the largest
power of ten first; the value itself is always contained, so the
search ends at exponent zero with the value. -/
def shortestSearch (n hu2 hl2 : Nat) (mEven : Bool) : Nat → Nat
  | 0 => n
  | j + 1 =>
    match nearestContained n hu2 hl2 mEven (10 ^ (j + 1)) with
    | some c => c
    | none => shortestSearch n hu2 hl2 mEven j

/-- Value printed by the ECMAScript rendering for the magnitude of a
whole double: below two to the 53 the exact value; above, the double
with value n is m times two to the e with m of 53 bits, and the
printed value is the shortest decimal in its rounding interval
(radius half an ulp, halved again below a power of two, boundaries
included for an even mantissa). -/
def jsWholeMagShortest (n : Nat) : Nat :=
  if n < 2 ^ 53 then n
  else
    let e := bitlen n - 53
    let m := n / 2 ^ e
    let hu2 := 2 ^ e
    let hl2 := if m = 2 ^ 52 then 2 ^ (e - 1) else 2 ^ e
    shortestSearch n hu2 hl2 (decide (m % 2 = 0)) (decDigits n)

/-- Model of JavaScript String applied to a whole-valued double, per
the ECMAScript Number toString algorithm: below two to the 53 the
exact positional decimal; above, the shortest round-tripping decimal,
rendered positionally up to 21 digits and in exponential notation
(as in 1e+21) from 22 digits on.  Whole doubles are at least one in
magnitude, so the small-exponent exponential forms never arise. -/
def jsWholeToString (i : Int) : String :=
  if i.natAbs < 2 ^ 53 then intToDec i
  else
    let v := jsWholeMagShortest i.natAbs
    let body :=
      if decDigits v ≤ 21 then natToDec v
      else
        let t := v / 10 ^ tenVal v
        let x := decDigits v - 1
        (match (natToDec t).data with
         | [] => ""
         | c :: rest =>
           String.mk (c :: (if rest.isEmpty then [] else '.' :: rest)))
          ++ "e+" ++ natToDec x
    if i < 0 then String.mk ('-' :: body.data) else body

/-- Standard base64 alphabet used by Buffer in Node. -/
def b64Chars : List Char :=
  "ABCDEFGHIJKLMNOPQRSTUVWXYZabcdefghijklmnopqrstuvwxyz0123456789+/".data

/-- Character for a sextet value below 64. -/
def sextetChar (n : Nat) : Char := b64Chars.getD n 'A'

/-- Sextet value of an alphabet character; none for characters outside
the alphabet, including the padding character. -/
def b64CharVal (c : Char) : Option Nat :=
  if b64Chars.indexOf c < 64 then some (b64Chars.indexOf c) else none

/-- Base64 encoding of a byte list in chunks of three bytes, with
padding, as produced by Buffer.toString. -/
def b64EncodeBytes : List Nat → List Char
  | [] => []
  | [b0] => [sextetChar (b0 / 4), sextetChar (b0 % 4 * 16), '=', '=']
  | [b0, b1] => [sextetChar (b0 / 4), sextetChar (b0 % 4 * 16 + b1 / 16),
      sextetChar (b1 % 16 * 4), '=']
  | b0 :: b1 :: b2 :: rest =>
      sextetChar (b0 / 4) :: sextetChar (b0 % 4 * 16 + b1 / 16) ::
      sextetChar (b1 % 16 * 4 + b2 / 64) :: sextetChar (b2 % 64) :: b64EncodeBytes rest

def b64Encode (b : List Nat) : String := String.mk (b64EncodeBytes b)

/-- Reassembly of bytes from a list of sextets, dropping a dangling
final sextet, the lenient behaviour of Buffer.from with base64. -/
def b64DecodeSextets : List Nat → List Nat
  | s0 :: s1 :: s2 :: s3 :: rest =>
      (s0 * 4 + s1 / 16) :: (s1 % 16 * 16 + s2 / 4) :: (s2 % 4 * 64 + s3) ::
      b64DecodeSextets rest
  | [s0, s1] => [s0 * 4 + s1 / 16]
  | [s0, s1, s2] => [s0 * 4 + s1 / 16, s1 % 16 * 16 + s2 / 4]
  | _ => []

/-- Lenient base64 decoding: characters outside the alphabet, padding
included, are skipped, then sextets are reassembled. -/
def b64Decode (s : String) : List Nat :=
  b64DecodeSextets (s.data.filterMap b64CharVal)

/-- Native value space: the values the embedded engine produces and
consumes.  Mirrors the JavaScript kinds handled by the codec in
server.ts: null or undefined, bigint, number (modelled as a rational),
string, and Uint8Array or Buffer (a byte list).  The final
catch-all String(val) branch of toHranaValue concerns host values
outside this space and is not modelled. -/
inductive NativeValue where
  | nNull
  | nBigint (i : Int)
  | nNumber (q : Rat)
  | nString (s : String)
  | nBytes (bytes : List Nat)
deriving DecidableEq, Repr

/-- Wire value: the tagged union sent over the Hrana protocol.
Integer payloads are decimal strings, blob payloads base64 strings,
float payloads JSON numbers. -/
inductive HranaValue where
  | vNull
  | vInteger (s : String)
  | vFloat (q : Rat)
  | vText (s : String)
  | vBlob (b64 : String)
deriving DecidableEq, Repr

/-- Decoder convertHranaValue from server.ts lines 23 to 30: null
becomes absent, integer parses its decimal string with BigInt (a
malformed string throws, modelled as an error), float is Number on an
already numeric payload (identity), text passes through, blob decodes
base64 with Buffer.from, which never throws. -/
def convertHranaValue : HranaValue → Except String NativeValue
  | .vNull => .ok .nNull
  | .vInteger s =>
    match decToInt s with
    | some i => .ok (.nBigint i)
    | none => .error ("Cannot convert " ++ s ++ " to a BigInt")
  | .vFloat q => .ok (.nNumber q)
  | .vText s => .ok (.nString s)
  | .vBlob s => .ok (.nBytes (b64Decode s))

/-- Encoder toHranaValue from server.ts lines 32 to 52: absent becomes
null, bigint renders via String, which for a bigint is always the
exact positional decimal, a number is classified by Number.isInteger
(denominator one) into integer or float, whole numbers rendering via
String on a double (jsWholeToString, exact below two to the 53,
shortest round-tripping decimal above, exponential from 1e21 on),
strings become text, byte buffers become base64 blobs. -/
def toHranaValue : NativeValue → HranaValue
  | .nNull => .vNull
  | .nBigint i => .vInteger (intToDec i)
  | .nNumber q => if q.den = 1 then .vInteger (jsWholeToString q.num) else .vFloat q
  | .nString s => .vText s
  | .nBytes b => .vBlob (b64Encode b)

/-- Documented reclassification of the round trip: a whole-valued
number comes back as an exact integer, every other kind is unchanged. -/
def reclassifyWhole : NativeValue → NativeValue
  | .nNumber q => if q.den = 1 then .nBigint q.num else .nNumber q
  | v => v

/-- Well-formedness of a native value: byte buffers hold bytes. -/
def nativeWellFormed : NativeValue → Prop
  | .nBytes b => ∀ x ∈ b, x < 256
  | _ => True

/-- Safe range of the documented round trip: whole-valued numbers stay
below two to the 53 (the safe integer range), where the String
rendering is the exact positional decimal.  At or above two to the 53
the shortest-decimal rendering can change the value, and from 1e21 on
it is exponential and the BigInt decode throws. -/
def nativeInSafeRange : NativeValue → Prop
  | .nNumber q => q.den = 1 → q.num.natAbs < 2 ^ 53
  | _ => True

/-- Whitespace trimmed by the JavaScript String trim method (the ASCII
subset relevant to SQL text). -/
def jsIsSpace (c : Char) : Bool :=
  c = ' ' || c = '\t' || c = '\n' || c = '\r' || c = '\x0b' || c = '\x0c'

/-- The JavaScript trim: strip whitespace from both ends. -/
def jsTrim (s : String) : String :=
  String.mk (((s.data.dropWhile jsIsSpace).reverse.dropWhile jsIsSpace).reverse)

/-- Uppercase mapping used by toUpperCase on the ASCII SQL keywords. -/
def upperAscii (s : String) : String := String.mk (s.data.map Char.toUpper)

/-- Read classification from server.ts lines 78 to 80: the trimmed
statement, uppercased, starts with SELECT or PRAGMA. -/
def isSelectSql (t : String) : Bool :=
  "SELECT".data.isPrefixOf (upperAscii t).data || "PRAGMA".data.isPrefixOf (upperAscii t).data

/-- Multi-statement heuristic from server.ts lines 83 to 85 on the
trimmed text: more than one semicolon, or a semicolon while the text
does not end with one. -/
def hasMultipleStatements (t : String) : Bool :=
  decide (1 < t.data.count ';') || (t.data.contains ';' && !(t.data.getLast? = some ';'))

/-- Statement of the multi-statement property in the words of the
specification: the trimmed text contains more than one semicolon, or
contains at least one semicolon that is not the final character. -/
def specMultiStatement (t : String) : Prop :=
  1 < t.data.count ';' ∨ ∃ i, i + 1 < t.data.length ∧ t.data.get? i = some ';'

/-- Named argument of a Hrana statement. -/
structure NamedArg where
  name : String
  value : HranaValue
deriving DecidableEq, Repr

/-- Hrana statement request: literal SQL text or a stored id, plus
positional or named arguments and the ignored want-rows hint.  Absent
args arrays are modelled as empty lists, which the source treats
identically. -/
structure HranaStatement where
  sql : Option String
  sql_id : Option Int
  args : List HranaValue
  named_args : List NamedArg
  want_rows : Option Bool
deriving DecidableEq, Repr

/-- Condition tree of a batch step, from the source union type: ok,
not, and, or, is-autocommit, or an unrecognized kind string.  The
source marks the child fields with non-null assertions; trees with
absent children are outside the modelled space. -/
inductive Condition where
  | okCond (step : Nat)
  | notCond (cond : Condition)
  | andCond (conds : List Condition)
  | orCond (conds : List Condition)
  | isAutocommit
  | unknownCond (kind : String)

/-- Batch step: a statement plus an optional condition. -/
structure HranaBatchStep where
  stmt : HranaStatement
  condition : Option Condition

/-- Pipeline request union: store-sql, execute, batch, close, or an
unrecognized type string.  The execute and batch payloads are optional
because the dispatcher tests them for truthiness. -/
inductive HranaRequest where
  | storeSql (sql_id : Int) (sql : String)
  | execute (stmt : Option HranaStatement)
  | batch (steps : Option (List HranaBatchStep))
  | close
  | unknownReq (kind : String)

/-- Per-database SQL-id mapping, the inner Map of sqlStorage. -/
abbrev SqlMap := List (Int × String)

/-- Global sqlStorage from db.ts line 11: database name to id map. -/
abbrev SqlStorage := List (String × SqlMap)

/-- Result of a prepared run call of the engine: changes and
lastInsertRowid. -/
structure StmtRunOutcome where
  changes : Int
  lastInsertRowid : Int
deriving DecidableEq, Repr

/-- Normalized statement result shape: column names (decltype is the
constant null in the source and is omitted), rows of wire values,
affected row count, and the optional decimal string of the last
inserted rowid. -/
structure StmtResult where
  cols : List String
  rows : List (List HranaValue)
  affected_row_count : Int
  last_insert_rowid : Option String
deriving DecidableEq, Repr

/-- Abstract embedded engine: the bun sqlite collaborator.  Rows are
association lists from column name to native value in object key
order.  Each operation either fails with a message or returns a value
and the successor database state. -/
structure Engine (σ : Type) where
  init : σ
  exec : String → σ → Except String σ
  allPos : String → List NativeValue → σ → Except String (List (List (String × NativeValue)) × σ)
  allNamed : String → List (String × NativeValue) → σ →
    Except String (List (List (String × NativeValue)) × σ)
  runPos : String → List NativeValue → σ → Except String (StmtRunOutcome × σ)
  runNamed : String → List (String × NativeValue) → σ → Except String (StmtRunOutcome × σ)

/-- Statement resolution from server.ts lines 63 to 76.  The source
tests with JavaScript truthiness, so an empty string, whether literal
or stored, is treated as missing. -/
def resolveSql (storage : SqlStorage) (dbName : String) (stmt : HranaStatement) :
    Except String String :=
  match stmt.sql with
  | some s => if s = "" then .error "No SQL statement provided" else .ok s
  | none =>
    match stmt.sql_id with
    | some id =>
      match alGet dbName storage with
      | some m =>
        match alGet id m with
        | some s =>
          if s = "" then .error ("SQL with id " ++ toString id ++ " not found") else .ok s
        | none => .error ("SQL with id " ++ toString id ++ " not found")
      | none => .error ("SQL with id " ++ toString id ++ " not found")
    | none => .error "No SQL statement provided"

/-- Decoding of the positional argument array, server.ts lines 55
to 61. -/
def decodeArgs (args : List HranaValue) : Except String (List NativeValue) :=
  mapExcept convertHranaValue args

/-- Decoding of named arguments into the dollar-prefixed parameter
object, server.ts lines 103 to 107. -/
def decodeNamedArgs (nargs : List NamedArg) : Except String (List (String × NativeValue)) :=
  mapExcept (fun a => (convertHranaValue a.value).map (fun v => ("$" ++ a.name, v))) nargs

/-- Result shape of a read statement, server.ts lines 111 to 123 and
139 to 151: columns from the key order of the first row, each row
encoded in its own key order, zero affected rows, null rowid. -/
def readShape (rows : List (List (String × NativeValue))) : StmtResult :=
  ⟨((rows.head?.getD []).map Prod.fst),
   rows.map (fun row => row.map (fun cell => toHranaValue cell.2)),
   0, none⟩

/-- Result shape of a write statement, server.ts lines 125 to 134 and
152 to 162: engine changes count and, when the rowid is truthy (zero
is falsy in JavaScript), its decimal string. -/
def writeShape (o : StmtRunOutcome) : StmtResult :=
  ⟨[], [], o.changes, if o.lastInsertRowid = 0 then none else some (intToDec o.lastInsertRowid)⟩

/-- Result shape of the multi-statement exec path, server.ts lines 94
to 100. -/
def emptyShape : StmtResult := ⟨[], [], 0, none⟩

/-- Body of executeStatement after argument decoding and resolution,
server.ts lines 78 to 165: the multi-statement exec path when no
parameters were supplied, otherwise prepare and run with named or
positional binding, shaping by the read classification.  Note that
exec receives the trimmed text while prepare receives the resolved
text unchanged, as in the source. -/
def runResolved {σ : Type} (eng : Engine σ) (sql : String) (args : List NativeValue)
    (named : List NamedArg) (s : σ) : Except String (StmtResult × σ) :=
  if hasMultipleStatements (jsTrim sql) && args.isEmpty && named.isEmpty then
    (eng.exec (jsTrim sql) s).map (fun s2 => (emptyShape, s2))
  else if !named.isEmpty then
    match decodeNamedArgs named with
    | .error e => .error e
    | .ok nargs =>
      if isSelectSql (jsTrim sql) then
        (eng.allNamed sql nargs s).map (fun p => (readShape p.1, p.2))
      else
        (eng.runNamed sql nargs s).map (fun p => (writeShape p.1, p.2))
  else
    if isSelectSql (jsTrim sql) then
      (eng.allPos sql args s).map (fun p => (readShape p.1, p.2))
    else
      (eng.runPos sql args s).map (fun p => (writeShape p.1, p.2))

/-- Full executeStatement from server.ts lines 54 to 166: decode the
positional arguments (before resolution, as in the source), resolve
the SQL text, then run.  Every throw of the source is an error value
here and propagates to the caller, the per-request or per-step catch
of the pipeline handler. -/
def executeStatement {σ : Type} (eng : Engine σ) (stmt : HranaStatement)
    (storage : SqlStorage) (dbName : String) (s : σ) : Except String (StmtResult × σ) :=
  match decodeArgs stmt.args with
  | .error e => .error e
  | .ok args =>
    match resolveSql storage dbName stmt with
    | .error e => .error e
    | .ok sql => runResolved eng sql args stmt.named_args s

mutual

/-- Condition evaluation from server.ts lines 169 to 189.  Prior step
outcomes are entries of some true (ok), some false (failed) or none
(skipped); an absent entry, a skipped entry or a failed entry makes ok
false; unknown kinds and is-autocommit are true. -/
def checkCond (rs : List (Option Bool)) : Condition → Bool
  | .okCond i =>
    match rs.get? i with
    | some (some true) => true
    | _ => false
  | .notCond c => !(checkCond rs c)
  | .andCond cs => checkCondAll rs cs
  | .orCond cs => checkCondAny rs cs
  | .isAutocommit => true
  | .unknownCond _ => true

/-- Conjunction over child conditions, the every call of the source. -/
def checkCondAll (rs : List (Option Bool)) : List Condition → Bool
  | [] => true
  | c :: cs => checkCond rs c && checkCondAll rs cs

/-- Disjunction over child conditions, the some call of the source. -/
def checkCondAny (rs : List (Option Bool)) : List Condition → Bool
  | [] => false
  | c :: cs => checkCond rs c || checkCondAny rs cs

end

/-- Top-level condition check: an absent condition is always met. -/
def checkCondition (c : Option Condition) (rs : List (Option Bool)) : Bool :=
  match c with
  | none => true
  | some c2 => checkCond rs c2

/-- One entry of the pipeline results array.  Ok entries wrap the
response type of the request; error entries carry the message (the
code field is the constant SQLITE_ERROR in the source). -/
inductive ResultEntry where
  | okStoreSql
  | okExecute (result : StmtResult)
  | okBatch (step_results : List (Option StmtResult)) (step_errors : List (Option String))
  | okClose
  | errorResult (message : String)
deriving DecidableEq, Repr

/-- Batch loop from server.ts lines 224 to 249: returns the outcome
list (ok flags or skipped), the step results, the step errors, and the
final engine state.  The prior list is index aligned with batch step
position. -/
def runBatchAux {σ : Type} (eng : Engine σ) (storage : SqlStorage) (dbName : String) :
    List HranaBatchStep → List (Option Bool) → σ →
    (List (Option Bool) × List (Option StmtResult) × List (Option String)) × σ
  | [], _, s => (([], [], []), s)
  | step :: rest, prior, s =>
    if checkCondition step.condition prior then
      match executeStatement eng step.stmt storage dbName s with
      | .ok (r, s1) =>
        let res := runBatchAux eng storage dbName rest (prior ++ [some true]) s1
        ((some true :: res.1.1, some r :: res.1.2.1, none :: res.1.2.2), res.2)
      | .error m =>
        let res := runBatchAux eng storage dbName rest (prior ++ [some false]) s
        ((some false :: res.1.1, none :: res.1.2.1, some m :: res.1.2.2), res.2)
    else
      let res := runBatchAux eng storage dbName rest (prior ++ [none]) s
      ((none :: res.1.1, none :: res.1.2.1, none :: res.1.2.2), res.2)

/-- State of the request loop inside one pipeline call: the global
sqlStorage, the contents of the captured dbSqlStorage reference, a
flag recording whether that reference is still the entry of the global
map (a close request detaches it), and the engine state of the
database handle. -/
structure LoopState (σ : Type) where
  global : SqlStorage
  localMap : SqlMap
  attached : Bool
  dbState : σ
deriving DecidableEq, Repr

/-- Dispatch of one pipeline request, server.ts lines 201 to 279.
Returns the appended result entries (one or none) and the next loop
state.  Unrecognized kinds, execute without stmt and batch without a
payload fall through every branch and append nothing. -/
def processOne {σ : Type} (eng : Engine σ) (dbName : String) (ls : LoopState σ) :
    HranaRequest → List ResultEntry × LoopState σ
  | .storeSql id sql =>
    let lm := alSet id sql ls.localMap
    let g := if ls.attached then alSet dbName lm ls.global else ls.global
    ([.okStoreSql], ⟨g, lm, ls.attached, ls.dbState⟩)
  | .execute (some stmt) =>
    match executeStatement eng stmt ls.global dbName ls.dbState with
    | .ok (r, s2) => ([.okExecute r], ⟨ls.global, ls.localMap, ls.attached, s2⟩)
    | .error m => ([.errorResult m], ls)
  | .execute none => ([], ls)
  | .batch (some steps) =>
    let res := runBatchAux eng ls.global dbName steps [] ls.dbState
    ([.okBatch res.1.2.1 res.1.2.2], ⟨ls.global, ls.localMap, ls.attached, res.2⟩)
  | .batch none => ([], ls)
  | .close =>
    ([.okClose], ⟨alErase dbName ls.global, ls.localMap, false, ls.dbState⟩)
  | .unknownReq _ => ([], ls)

/-- The request loop: process requests in order, concatenating the
appended result entries. -/
def processRequests {σ : Type} (eng : Engine σ) (dbName : String) :
    List HranaRequest → LoopState σ → List ResultEntry × LoopState σ
  | [], ls => ([], ls)
  | r :: rs, ls =>
    let p := processOne eng dbName ls r
    let q := processRequests eng dbName rs p.2
    (p.1 ++ q.1, q.2)

/-- Server state across pipeline calls: the global sqlStorage and the
dbCache of open handles from db.ts lines 7 to 11.  A cached handle is
its engine state. -/
structure ServerState (σ : Type) where
  sqlStorage : SqlStorage
  dbCache : List (String × σ)
deriving DecidableEq, Repr

/-- The getDb function from db.ts lines 27 to 36: return the cached
handle or open a fresh one and cache it. -/
def getDb {σ : Type} (eng : Engine σ) (dbName : String) (st : ServerState σ) :
    σ × ServerState σ :=
  match alGet dbName st.dbCache with
  | some d => (d, st)
  | none => (eng.init, ⟨st.sqlStorage, alSet dbName eng.init st.dbCache⟩)

/-- Pipeline response wrapper: baton and base url are always null. -/
structure PipelineResponse where
  baton : Option String
  base_url : Option String
  results : List ResultEntry
deriving DecidableEq, Repr

/-- Initialization of the storage entry for a database, server.ts
lines 196 to 198: create an empty map when none exists. -/
def initStorage (dbName : String) (g : SqlStorage) : SqlStorage :=
  if (alGet dbName g).isNone then alSet dbName ([] : SqlMap) g else g

/-- The pipeline handler from server.ts lines 191 to 286: fetch the
handle, ensure the storage entry exists, capture the dbSqlStorage
reference, loop over the requests, and return the response with the
updated server state (the mutated handle is written back to the
cache, matching in-place mutation of the cached object). -/
def handlePipelineRequest {σ : Type} (eng : Engine σ) (requests : List HranaRequest)
    (dbName : String) (st : ServerState σ) : PipelineResponse × ServerState σ :=
  let d := getDb eng dbName st
  let g0 := initStorage dbName d.2.sqlStorage
  let lm0 := (alGet dbName g0).getD []
  let p := processRequests eng dbName requests ⟨g0, lm0, true, d.1⟩
  (⟨none, none, p.1⟩, ⟨p.2.global, alSet dbName p.2.dbState d.2.dbCache⟩)

/-- Predicate, in the words of the specification, for the requests
that append exactly one result entry: store-sql, close, execute with a
statement, batch with a payload. -/
def isHandledRequest : HranaRequest → Bool
  | .storeSql _ _ => true
  | .execute (some _) => true
  | .execute none => false
  | .batch (some _) => true
  | .batch none => false
  | .close => true
  | .unknownReq _ => false

/-- Trivial concrete engine used for witnesses: every call succeeds
with no rows and no changes. -/
def unitEngine : Engine Unit :=
  ⟨(), fun _ s => .ok s, fun _ _ s => .ok ([], s), fun _ _ s => .ok ([], s),
   fun _ _ s => .ok (⟨0, 0⟩, s), fun _ _ s => .ok (⟨0, 0⟩, s)⟩

/-- Concrete engine whose queries return one row with one column
named x holding the integer one; used to exhibit the multi-statement
carve-out of the read path. -/
def selEngine : Engine Unit :=
  ⟨(), fun _ s => .ok s,
   fun _ _ s => .ok ([[("x", NativeValue.nBigint 1)]], s),
   fun _ _ s => .ok ([[("x", NativeValue.nBigint 1)]], s),
   fun _ _ s => .ok (⟨0, 0⟩, s), fun _ _ s => .ok (⟨0, 0⟩, s)⟩

theorem alGet_alSet_self {α β : Type} [DecidableEq α] (k : α) (v : β) (m : List (α × β)) :
    alGet k (alSet k v m) = some v := by
  induction m with
  | nil => simp [alGet, alSet]
  | cons hd tl ih =>
    obtain ⟨k2, v2⟩ := hd
    by_cases h : k = k2 <;> simp [alGet, alSet, h, ih]

theorem alGet_alSet_ne {α β : Type} [DecidableEq α] {k k2 : α} (v : β) (m : List (α × β))
    (h : k ≠ k2) : alGet k (alSet k2 v m) = alGet k m := by
  induction m with
  | nil => simp [alGet, alSet, h]
  | cons hd tl ih =>
    obtain ⟨k3, v3⟩ := hd
    by_cases h2 : k2 = k3
    · subst h2; simp [alGet, alSet, h]
    · by_cases h3 : k = k3 <;> simp [alGet, alSet, h2, h3, ih]

theorem alGet_eq_none_of_not_mem {α β : Type} [DecidableEq α] {k : α} {m : List (α × β)}
    (h : k ∉ m.map Prod.fst) : alGet k m = none := by
  induction m with
  | nil => rfl
  | cons hd tl ih =>
    obtain ⟨k2, v2⟩ := hd
    simp only [List.map_cons, List.mem_cons] at h
    push_neg at h
    simp [alGet, h.1, ih h.2]

theorem alGet_alErase_self {α β : Type} [DecidableEq α] (k : α) (m : List (α × β))
    (h : keysNodup m) : alGet k (alErase k m) = none := by
  induction m with
  | nil => rfl
  | cons hd tl ih =>
    obtain ⟨k2, v2⟩ := hd
    unfold keysNodup at h
    simp only [List.map_cons, List.nodup_cons] at h
    by_cases h2 : k = k2
    · subst h2
      simp only [alErase, if_pos rfl]
      exact alGet_eq_none_of_not_mem h.1
    · simp [alErase, alGet, h2, ih h.2]

theorem keysNodup_alSet {α β : Type} [DecidableEq α] (k : α) (v : β) (m : List (α × β))
    (h : keysNodup m) : keysNodup (alSet k v m) := by
  induction m with
  | nil => simp [alSet, keysNodup]
  | cons hd tl ih =>
    obtain ⟨k2, v2⟩ := hd
    unfold keysNodup at h ⊢
    simp only [List.map_cons, List.nodup_cons] at h
    by_cases h2 : k = k2
    · subst h2
      simp [alSet, h.1, h.2]
    · have hmem : k2 ∉ (alSet k v tl).map Prod.fst := by
        have : ∀ (l : List (α × β)), k2 ∉ l.map Prod.fst → k2 ∉ (alSet k v l).map Prod.fst := by
          intro l
          induction l with
          | nil =>
            intro _
            simp only [alSet, List.map_cons, List.map_nil, List.mem_cons, List.not_mem_nil,
              or_false]
            exact fun hh => h2 hh.symm
          | cons hd2 tl2 ih2 =>
            obtain ⟨k3, v3⟩ := hd2
            intro hnm
            simp only [List.map_cons, List.mem_cons] at hnm
            push_neg at hnm
            by_cases h3 : k = k3
            · subst h3
              simp [alSet, hnm.1, hnm.2]
            · simp only [alSet, if_neg h3, List.map_cons, List.mem_cons]
              push_neg
              exact ⟨hnm.1, ih2 hnm.2⟩
        exact this tl h.1
      simp only [alSet, if_neg h2, List.map_cons, List.nodup_cons]
      exact ⟨hmem, ih h.2⟩

theorem keysNodup_alErase {α β : Type} [DecidableEq α] (k : α) (m : List (α × β))
    (h : keysNodup m) : keysNodup (alErase k m) := by
  induction m with
  | nil => simp [alErase, keysNodup]
  | cons hd tl ih =>
    obtain ⟨k2, v2⟩ := hd
    unfold keysNodup at h ⊢
    simp only [List.map_cons, List.nodup_cons] at h
    by_cases h2 : k = k2
    · simp [alErase, h2, h.2]
    · have hmem : k2 ∉ (alErase k tl).map Prod.fst := by
        have : ∀ (l : List (α × β)), k2 ∉ l.map Prod.fst → k2 ∉ (alErase k l).map Prod.fst := by
          intro l
          induction l with
          | nil => intro _; simp [alErase]
          | cons hd2 tl2 ih2 =>
            obtain ⟨k3, v3⟩ := hd2
            intro hnm
            simp only [List.map_cons, List.mem_cons] at hnm
            push_neg at hnm
            by_cases h3 : k = k3
            · subst h3
              simp only [alErase, if_pos rfl]
              exact hnm.2
            · simp only [alErase, if_neg h3, List.map_cons, List.mem_cons]
              push_neg
              exact ⟨hnm.1, ih2 hnm.2⟩
        exact this tl h.1
      simp only [alErase, if_neg h2, List.map_cons, List.nodup_cons]
      exact ⟨hmem, ih h.2⟩

theorem alGet_alErase_ne {α β : Type} [DecidableEq α] {k k2 : α} (m : List (α × β))
    (h : k ≠ k2) : alGet k (alErase k2 m) = alGet k m := by
  induction m with
  | nil => simp [alErase]
  | cons hd tl ih =>
    obtain ⟨k3, v3⟩ := hd
    by_cases h2 : k2 = k3
    · subst h2
      simp [alErase, alGet, h]
    · by_cases h3 : k = k3 <;> simp [alErase, alGet, h2, h3, ih]

theorem alSet_self_of_get {α β : Type} [DecidableEq α] {k : α} {v : β} {m : List (α × β)}
    (h : alGet k m = some v) : alSet k v m = m := by
  induction m with
  | nil => simp [alGet] at h
  | cons hd tl ih =>
    obtain ⟨k2, v2⟩ := hd
    by_cases h2 : k = k2
    · subst h2
      simp [alGet] at h
      simp [alSet, h]
    · simp [alGet, h2] at h
      simp [alSet, h2, ih h]

theorem mapOpt_map_of_inverse {α β : Type} {f : β → Option α} {g : α → β} :
    ∀ (l : List α), (∀ a ∈ l, f (g a) = some a) → mapOpt f (l.map g) = some l := by
  intro l
  induction l with
  | nil => intro _; simp [mapOpt]
  | cons a as ih =>
    intro h
    have ha := h a (by simp)
    have hrest := ih (fun x hx => h x (by simp [hx]))
    simp [mapOpt, ha, hrest]

theorem charToDigit_digitToChar {d : Nat} (h : d < 10) :
    charToDigit (digitToChar d) = some d := by
  interval_cases d <;> rfl

theorem digitToChar_ne_dash (d : Nat) : digitToChar d ≠ '-' := by
  unfold digitToChar
  split <;> decide

theorem natDigitsAux_eq (fuel : Nat) : ∀ n, n ≤ fuel → natDigitsAux fuel n = Nat.digits 10 n := by
  induction fuel with
  | zero =>
    intro n h
    interval_cases n
    simp [natDigitsAux, Nat.digits_zero]
  | succ f ih =>
    intro n h
    match n with
    | 0 => simp [natDigitsAux, Nat.digits_zero]
    | k + 1 =>
      have hlt : (k + 1) / 10 < k + 1 := Nat.div_lt_self (Nat.succ_pos k) (by norm_num)
      have hdiv : (k + 1) / 10 ≤ f := by omega
      rw [natDigitsAux, ih _ hdiv,
        ← Nat.digits_def' (by norm_num : (1 : Nat) < 10) (Nat.succ_pos k)]

theorem natDigits_eq (n : Nat) : natDigits n = Nat.digits 10 n :=
  natDigitsAux_eq n n le_rfl

theorem decToNat_natToDec (n : Nat) : decToNat (natToDec n) = some n := by
  by_cases h : n = 0
  · subst h; rfl
  · have hne : Nat.digits 10 n ≠ [] := Nat.digits_ne_nil_iff_ne_zero.mpr h
    have hlt : ∀ d ∈ Nat.digits 10 n, d < 10 :=
      fun d hd => Nat.digits_lt_base (by norm_num) hd
    have hdata : (natToDec n).data = ((Nat.digits 10 n).map digitToChar).reverse := by
      simp [natToDec, h, natDigits_eq]
    have hrev : ((Nat.digits 10 n).map digitToChar).reverse
        = ((Nat.digits 10 n).reverse).map digitToChar := by
      simp [List.map_reverse]
    have hmo : mapOpt charToDigit (((Nat.digits 10 n).reverse).map digitToChar)
        = some ((Nat.digits 10 n).reverse) := by
      apply mapOpt_map_of_inverse
      intro d hd
      exact charToDigit_digitToChar (hlt d (List.mem_reverse.mp hd))
    have hnonempty : ¬ (natToDec n).data.isEmpty := by
      rw [hdata]
      simp [List.isEmpty_iff, hne]
    unfold decToNat
    rw [if_neg hnonempty, hdata, hrev, hmo]
    simp [Nat.ofDigits_digits]

theorem natToDec_data_ne_nil (n : Nat) : (natToDec n).data ≠ [] := by
  by_cases h : n = 0
  · subst h; decide
  · have hne : Nat.digits 10 n ≠ [] := Nat.digits_ne_nil_iff_ne_zero.mpr h
    simp [natToDec, h, natDigits_eq, hne]

theorem natToDec_head_ne_dash (n : Nat) :
    ∀ c ∈ (natToDec n).data, c ≠ '-' := by
  intro c hc
  by_cases h : n = 0
  · subst h
    simp [natToDec] at hc
    subst hc; decide
  · have : (natToDec n).data = ((Nat.digits 10 n).map digitToChar).reverse := by
      simp [natToDec, h, natDigits_eq]
    rw [this] at hc
    rw [List.mem_reverse] at hc
    obtain ⟨d, _, rfl⟩ := List.mem_map.mp hc
    exact digitToChar_ne_dash d

theorem string_mk_data (s : String) : String.mk s.data = s := by
  cases s; rfl

theorem decToInt_intToDec (i : Int) : decToInt (intToDec i) = some i := by
  by_cases h : i < 0
  · have hdata : (intToDec i).data = '-' :: (natToDec i.natAbs).data := by
      simp [intToDec, h]
    unfold decToInt
    rw [hdata]
    show (decToNat (String.mk (natToDec i.natAbs).data)).map (fun n => -(Int.ofNat n)) = some i
    rw [string_mk_data, decToNat_natToDec, Option.map_some']
    congr 1
    simp only [Int.ofNat_eq_coe]
    omega
  · have hdata : intToDec i = natToDec i.toNat := by
      simp [intToDec, h]
    rw [hdata]
    rcases hcons : (natToDec i.toNat).data with _ | ⟨c, rest⟩
    · exact absurd hcons (natToDec_data_ne_nil i.toNat)
    · have hc : c ≠ '-' := natToDec_head_ne_dash i.toNat c (by rw [hcons]; simp)
      have hstep : decToInt (natToDec i.toNat)
          = (decToNat (natToDec i.toNat)).map Int.ofNat := by
        unfold decToInt
        rw [hcons]
        show (if c = '-' then (decToNat (String.mk rest)).map (fun n => -(Int.ofNat n))
          else (decToNat (natToDec i.toNat)).map Int.ofNat) = _
        rw [if_neg hc]
      rw [hstep, decToNat_natToDec, Option.map_some']
      congr 1
      simp only [Int.ofNat_eq_coe]
      omega

theorem b64CharVal_sextetChar {n : Nat} (h : n < 64) :
    b64CharVal (sextetChar n) = some n := by
  interval_cases n <;> decide

theorem b64CharVal_eq : b64CharVal '=' = none := by decide

theorem b64Decode_b64Encode (b : List Nat) (h : ∀ x ∈ b, x < 256) :
    b64Decode (b64Encode b) = b := by
  show b64DecodeSextets ((b64EncodeBytes b).filterMap b64CharVal) = b
  match b with
  | [] => rfl
  | [b0] =>
    have h0 : b0 < 256 := h b0 (by simp)
    have e1 : b64CharVal (sextetChar (b0 / 4)) = some (b0 / 4) :=
      b64CharVal_sextetChar (by omega)
    have e2 : b64CharVal (sextetChar (b0 % 4 * 16)) = some (b0 % 4 * 16) :=
      b64CharVal_sextetChar (by omega)
    simp only [b64EncodeBytes, List.filterMap_cons, e1, e2, b64CharVal_eq,
      List.filterMap_nil, b64DecodeSextets]
    have : b0 / 4 * 4 + b0 % 4 * 16 / 16 = b0 := by omega
    rw [this]
  | [b0, b1] =>
    have h0 : b0 < 256 := h b0 (by simp)
    have h1 : b1 < 256 := h b1 (by simp)
    have e1 : b64CharVal (sextetChar (b0 / 4)) = some (b0 / 4) :=
      b64CharVal_sextetChar (by omega)
    have e2 : b64CharVal (sextetChar (b0 % 4 * 16 + b1 / 16)) = some (b0 % 4 * 16 + b1 / 16) :=
      b64CharVal_sextetChar (by omega)
    have e3 : b64CharVal (sextetChar (b1 % 16 * 4)) = some (b1 % 16 * 4) :=
      b64CharVal_sextetChar (by omega)
    simp only [b64EncodeBytes, List.filterMap_cons, e1, e2, e3, b64CharVal_eq,
      List.filterMap_nil, b64DecodeSextets]
    have g1 : b0 / 4 * 4 + (b0 % 4 * 16 + b1 / 16) / 16 = b0 := by omega
    have g2 : (b0 % 4 * 16 + b1 / 16) % 16 * 16 + b1 % 16 * 4 / 4 = b1 := by omega
    rw [g1, g2]
  | b0 :: b1 :: b2 :: rest =>
    have h0 : b0 < 256 := h b0 (by simp)
    have h1 : b1 < 256 := h b1 (by simp)
    have h2 : b2 < 256 := h b2 (by simp)
    have e1 : b64CharVal (sextetChar (b0 / 4)) = some (b0 / 4) :=
      b64CharVal_sextetChar (by omega)
    have e2 : b64CharVal (sextetChar (b0 % 4 * 16 + b1 / 16)) = some (b0 % 4 * 16 + b1 / 16) :=
      b64CharVal_sextetChar (by omega)
    have e3 : b64CharVal (sextetChar (b1 % 16 * 4 + b2 / 64)) = some (b1 % 16 * 4 + b2 / 64) :=
      b64CharVal_sextetChar (by omega)
    have e4 : b64CharVal (sextetChar (b2 % 64)) = some (b2 % 64) :=
      b64CharVal_sextetChar (by omega)
    have ih := b64Decode_b64Encode rest (fun x hx => h x (by simp [hx]))
    have ih2 : b64DecodeSextets ((b64EncodeBytes rest).filterMap b64CharVal) = rest := ih
    simp only [b64EncodeBytes, List.filterMap_cons, e1, e2, e3, e4, b64DecodeSextets, ih2]
    have g1 : b0 / 4 * 4 + (b0 % 4 * 16 + b1 / 16) / 16 = b0 := by omega
    have g2 : (b0 % 4 * 16 + b1 / 16) % 16 * 16 + (b1 % 16 * 4 + b2 / 64) / 4 = b1 := by omega
    have g3 : (b1 % 16 * 4 + b2 / 64) % 4 * 64 + b2 % 64 = b2 := by omega
    rw [g1, g2, g3]
termination_by b.length

theorem hasMultipleStatements_iff (t : String) :
    hasMultipleStatements t = true ↔ specMultiStatement t := by
  unfold hasMultipleStatements specMultiStatement
  constructor
  · intro h
    rcases (Bool.or_eq_true _ _).mp h with h1 | h2
    · exact Or.inl (of_decide_eq_true h1)
    · obtain ⟨hc, hl⟩ := (Bool.and_eq_true _ _).mp h2
      have hmem : (';' : Char) ∈ t.data := List.elem_iff.mp hc
      obtain ⟨n, hn⟩ := List.mem_iff_get?.mp hmem
      have hlen : n < t.data.length := by
        rcases List.get?_eq_some.mp hn with ⟨hh, _⟩
        exact hh
      have hnl : t.data.getLast? ≠ some ';' := by
        intro hcontra
        rw [hcontra] at hl
        simp at hl
      right
      refine ⟨n, ?_, hn⟩
      by_contra hcon
      have heq : n = t.data.length - 1 := by omega
      apply hnl
      rw [List.getLast?_eq_get?, ← heq]
      exact hn
  · intro h
    rcases h with h1 | ⟨i, hi, hget⟩
    · exact (Bool.or_eq_true _ _).mpr (Or.inl (decide_eq_true h1))
    · by_cases hl : t.data.getLast? = some ';'
      · have hlast : t.data.get? (t.data.length - 1) = some ';' := by
          rw [← List.getLast?_eq_get?]
          exact hl
        have hcount : t.data.count ';'
            = (t.data.take (i + 1)).count ';' + (t.data.drop (i + 1)).count ';' := by
          conv_lhs => rw [← List.take_append_drop (i + 1) t.data]
          exact List.count_append ';' _ _
        have h1mem : (';' : Char) ∈ t.data.take (i + 1) := by
          have hh : (t.data.take (i + 1)).get? i = some ';' := by
            rw [List.get?_take (by omega)]
            exact hget
          exact List.get?_mem hh
        have h2mem : (';' : Char) ∈ t.data.drop (i + 1) := by
          have hh : (t.data.drop (i + 1)).get? (t.data.length - 1 - (i + 1)) = some ';' := by
            rw [List.get?_drop]
            have heq : i + 1 + (t.data.length - 1 - (i + 1)) = t.data.length - 1 := by omega
            rw [heq]
            exact hlast
          exact List.get?_mem hh
        have c1 : 0 < (t.data.take (i + 1)).count ';' := List.count_pos_iff.mpr h1mem
        have c2 : 0 < (t.data.drop (i + 1)).count ';' := List.count_pos_iff.mpr h2mem
        apply (Bool.or_eq_true _ _).mpr
        exact Or.inl (decide_eq_true (by omega))
      · apply (Bool.or_eq_true _ _).mpr
        apply Or.inr
        apply (Bool.and_eq_true _ _).mpr
        constructor
        · exact List.elem_iff.mpr (List.get?_mem hget)
        · simp [hl]

theorem jsWholeToString_small {i : Int} (h : i.natAbs < 2 ^ 53) :
    jsWholeToString i = intToDec i := by
  unfold jsWholeToString
  rw [if_pos h]

/-- Claim C1 (amended) of the specification: for every value of the
defined native space whose whole-valued numbers lie in the safe
integer range below two to the 53, decoding the encoding reproduces
the value and its kind, modulo the documented reclassification of
whole-valued numbers into exact integers.  Outside that range the
String rendering of a whole double is a shortest round-tripping
decimal that can change the value, and from 1e21 on it is exponential
and the decode throws, so the round trip fails there (see the
counterexample). -/
theorem codec_round_trip (v : NativeValue) (h : nativeWellFormed v)
    (hs : nativeInSafeRange v) :
    convertHranaValue (toHranaValue v) = .ok (reclassifyWhole v) := by
  cases v with
  | nNull => rfl
  | nBigint i =>
    simp [toHranaValue, convertHranaValue, reclassifyWhole, decToInt_intToDec]
  | nNumber q =>
    by_cases hq : q.den = 1
    · have hsmall : q.num.natAbs < 2 ^ 53 := hs hq
      simp [toHranaValue, convertHranaValue, reclassifyWhole, hq,
        jsWholeToString_small hsmall, decToInt_intToDec]
    · simp [toHranaValue, convertHranaValue, reclassifyWhole, hq]
  | nString s => rfl
  | nBytes b =>
    have hb := b64Decode_b64Encode b h
    simp [toHranaValue, convertHranaValue, reclassifyWhole, hb]

/-- Witness for the codec round trip at a concrete byte buffer and at
a concrete whole number in the safe range. -/
theorem codec_round_trip_witness :
    (convertHranaValue (toHranaValue (NativeValue.nBytes [0, 255, 16]))
      = .ok (reclassifyWhole (NativeValue.nBytes [0, 255, 16]))) ∧
    (convertHranaValue (toHranaValue (NativeValue.nNumber (3 : Rat)))
      = .ok (reclassifyWhole (NativeValue.nNumber (3 : Rat)))) :=
  ⟨codec_round_trip (NativeValue.nBytes [0, 255, 16])
      (by simp only [nativeWellFormed]; decide)
      (by simp [nativeInSafeRange]),
   codec_round_trip (NativeValue.nNumber (3 : Rat))
      (by simp [nativeWellFormed])
      (by simp only [nativeInSafeRange]; intro _; decide)⟩

/-- Claim C1 counterexample: the round trip fails at reachable whole
doubles of large magnitude.  Two to the 60, exactly representable as
a double, renders by the shortest-decimal rule as 1152921504606847000,
so decoding yields a bigint with a different value; and 1e21 (ten to
the 21, also exactly representable, its mantissa five to the 21 fits
in 53 bits) renders exponentially as 1e+21, on which the BigInt decode
throws.  In both cases decode of encode differs from the reclassified
input demanded by the claim. -/
theorem codec_round_trip_counterexample :
    ((1152921504606846976 : Rat).den = 1 ∧
      (1152921504606846976 : Rat).num = 1152921504606846976) ∧
    toHranaValue (NativeValue.nNumber (1152921504606846976 : Rat))
      = HranaValue.vInteger "1152921504606847000" ∧
    convertHranaValue (toHranaValue (NativeValue.nNumber (1152921504606846976 : Rat)))
      = .ok (NativeValue.nBigint 1152921504606847000) ∧
    reclassifyWhole (NativeValue.nNumber (1152921504606846976 : Rat))
      = NativeValue.nBigint 1152921504606846976 ∧
    convertHranaValue (toHranaValue (NativeValue.nNumber (1152921504606846976 : Rat)))
      ≠ .ok (reclassifyWhole (NativeValue.nNumber (1152921504606846976 : Rat))) ∧
    toHranaValue (NativeValue.nNumber (1000000000000000000000 : Rat))
      = HranaValue.vInteger "1e+21" ∧
    convertHranaValue (toHranaValue (NativeValue.nNumber (1000000000000000000000 : Rat)))
      = .error "Cannot convert 1e+21 to a BigInt" := by
  refine ⟨⟨by decide, by decide⟩, by decide, by decide, by decide, by decide, by decide, by decide⟩

/-- Claim C5 (amended) of the specification: a nonempty literal is returned unchanged; with no
literal, an id whose registered text is missing or empty fails with
the not-found error; neither literal nor id fails with the
no-statement error; and a present but empty literal also fails with
the no-statement error instead of being returned. -/
theorem resolve_sql_spec (storage : SqlStorage) (dbName : String) :
    (∀ (stmt : HranaStatement) (s : String), stmt.sql = some s → s ≠ "" →
      resolveSql storage dbName stmt = .ok s) ∧
    (∀ (stmt : HranaStatement) (i : Int), stmt.sql = none → stmt.sql_id = some i →
      ((alGet dbName storage).bind (alGet i) = none ∨
        (alGet dbName storage).bind (alGet i) = some "") →
      resolveSql storage dbName stmt = .error ("SQL with id " ++ toString i ++ " not found")) ∧
    (∀ stmt : HranaStatement, stmt.sql = none → stmt.sql_id = none →
      resolveSql storage dbName stmt = .error "No SQL statement provided") ∧
    (∀ stmt : HranaStatement, stmt.sql = some "" →
      resolveSql storage dbName stmt = .error "No SQL statement provided") := by
  refine ⟨?_, ?_, ?_, ?_⟩
  · intro stmt s hsql hne
    simp [resolveSql, hsql, hne]
  · intro stmt i hsql hid hmiss
    rcases hg : alGet dbName storage with _ | m
    · simp [resolveSql, hsql, hid, hg]
    · rw [hg] at hmiss
      simp only [Option.some_bind] at hmiss
      rcases hgi : alGet i m with _ | s2
      · simp [resolveSql, hsql, hid, hg, hgi]
      · rw [hgi] at hmiss
        rcases hmiss with hmiss | hmiss
        · exact absurd hmiss (by simp)
        · have : s2 = "" := by
            injection hmiss
          subst this
          simp [resolveSql, hsql, hid, hg, hgi]
  · intro stmt hsql hid
    simp [resolveSql, hsql, hid]
  · intro stmt hsql
    simp [resolveSql, hsql]

/-- Witness for the resolver at a nonempty literal. -/
theorem resolve_sql_spec_witness :
    resolveSql [] "d" ⟨some "SELECT 1", none, [], [], none⟩ = .ok "SELECT 1" :=
  (resolve_sql_spec [] "d").1 ⟨some "SELECT 1", none, [], [], none⟩ "SELECT 1" rfl (by decide)

/-- C5 counterexample: a present literal empty string is not returned
unchanged; the resolver rejects it as no statement provided. -/
theorem resolve_sql_counterexample :
    resolveSql [] "d" ⟨some "", none, [], [], none⟩ = .error "No SQL statement provided" ∧
    resolveSql [] "d" ⟨some "", none, [], [], none⟩ ≠ .ok "" := by
  constructor
  · rfl
  · decide

/-- Claim C6 of the specification: the multi-statement predicate agrees with the specification
wording, and a multi-statement text with no positional and no named
parameters is executed through the exec call of the engine, returning
the empty result shape. -/
theorem multi_statement_exec_path {σ : Type} (eng : Engine σ) :
    (∀ t : String, hasMultipleStatements t = true ↔ specMultiStatement t) ∧
    (∀ (stmt : HranaStatement) (storage : SqlStorage) (dbName sql : String) (s : σ),
      resolveSql storage dbName stmt = .ok sql →
      stmt.args = [] → stmt.named_args = [] →
      hasMultipleStatements (jsTrim sql) = true →
      executeStatement eng stmt storage dbName s
        = (eng.exec (jsTrim sql) s).map (fun s2 => (emptyShape, s2))) := by
  refine ⟨hasMultipleStatements_iff, ?_⟩
  intro stmt storage dbName sql s hres hargs hnamed hmulti
  unfold executeStatement
  rw [hargs, hres]
  show (match (decodeArgs [] : Except String (List NativeValue)) with
    | .error e => .error e
    | .ok args => runResolved eng sql args stmt.named_args s)
    = (eng.exec (jsTrim sql) s).map (fun s2 => (emptyShape, s2))
  have hda : (decodeArgs [] : Except String (List NativeValue)) = .ok [] := rfl
  rw [hda]
  show runResolved eng sql [] stmt.named_args s = _
  rw [hnamed]
  unfold runResolved
  rw [hmulti]
  simp

/-- Witness for the exec path at a concrete schema script. -/
theorem multi_statement_exec_path_witness :
    executeStatement unitEngine
      ⟨some "CREATE TABLE a (x); CREATE TABLE b (y)", none, [], [], none⟩ [] "d" ()
    = (unitEngine.exec (jsTrim "CREATE TABLE a (x); CREATE TABLE b (y)") ()).map
      (fun s2 => (emptyShape, s2)) :=
  (multi_statement_exec_path unitEngine).2
    ⟨some "CREATE TABLE a (x); CREATE TABLE b (y)", none, [], [], none⟩ [] "d"
    "CREATE TABLE a (x); CREATE TABLE b (y)" () rfl rfl rfl (by decide)

/-- Claim C8 of the specification: the condition evaluator follows the specified semantics: ok of
an index is true exactly when that prior entry exists and succeeded,
not negates, and requires all children, or requires one child,
is-autocommit and unrecognized kinds are true, an absent condition is
true, and a step without a condition is never skipped by the batch
loop. -/
theorem check_condition_spec {σ : Type} (eng : Engine σ) :
    (∀ rs : List (Option Bool), checkCondition none rs = true) ∧
    (∀ (i : Nat) (rs : List (Option Bool)),
      checkCondition (some (.okCond i)) rs = true ↔ rs.get? i = some (some true)) ∧
    (∀ (c : Condition) (rs : List (Option Bool)),
      checkCondition (some (.notCond c)) rs = !(checkCondition (some c) rs)) ∧
    (∀ (cs : List Condition) (rs : List (Option Bool)),
      checkCondition (some (.andCond cs)) rs = true ↔
        ∀ c ∈ cs, checkCondition (some c) rs = true) ∧
    (∀ (cs : List Condition) (rs : List (Option Bool)),
      checkCondition (some (.orCond cs)) rs = true ↔
        ∃ c ∈ cs, checkCondition (some c) rs = true) ∧
    (∀ rs : List (Option Bool), checkCondition (some .isAutocommit) rs = true) ∧
    (∀ (k : String) (rs : List (Option Bool)),
      checkCondition (some (.unknownCond k)) rs = true) ∧
    (∀ (storage : SqlStorage) (dbName : String) (step : HranaBatchStep)
      (rest : List HranaBatchStep) (prior : List (Option Bool)) (s : σ),
      step.condition = none →
      ∃ b, (runBatchAux eng storage dbName (step :: rest) prior s).1.1.head?
        = some (some b)) := by
  refine ⟨fun rs => rfl, ?_, fun c rs => rfl, ?_, ?_, fun rs => rfl, fun k rs => rfl, ?_⟩
  · intro i rs
    rcases h : rs.get? i with _ | ob
    · unfold checkCondition checkCond
      rw [h]
      simp
    · rcases ob with _ | b
      · unfold checkCondition checkCond
        rw [h]
        simp
      · cases b
        · unfold checkCondition checkCond
          rw [h]
          simp
        · unfold checkCondition checkCond
          rw [h]
          simp
  · intro cs rs
    induction cs with
    | nil => simp [checkCondition, checkCond, checkCondAll]
    | cons c cs2 ih =>
      simp only [checkCondition, checkCond, checkCondAll] at ih ⊢
      rw [Bool.and_eq_true, List.forall_mem_cons, ih]
  · intro cs rs
    induction cs with
    | nil => simp [checkCondition, checkCond, checkCondAny]
    | cons c cs2 ih =>
      simp only [checkCondition, checkCond, checkCondAny] at ih ⊢
      rw [Bool.or_eq_true, ih]
      constructor
      · rintro (h | ⟨c2, hc2, hc3⟩)
        · exact ⟨c, by simp, h⟩
        · exact ⟨c2, by simp [hc2], hc3⟩
      · rintro ⟨c2, hc2, hc3⟩
        rcases List.mem_cons.mp hc2 with h | h
        · subst h; exact Or.inl hc3
        · exact Or.inr ⟨c2, h, hc3⟩
  · intro storage dbName step rest prior s hcond
    rcases hex : executeStatement eng step.stmt storage dbName s with m | ⟨r, s1⟩
    · refine ⟨false, ?_⟩
      simp [runBatchAux, hcond, checkCondition, hex]
    · refine ⟨true, ?_⟩
      simp [runBatchAux, hcond, checkCondition, hex]

/-- Witness for the batch loop executing an unconditioned step. -/
theorem check_condition_spec_witness :
    ∃ b, (runBatchAux unitEngine [] "d"
      [⟨⟨some "SELECT 1", none, [], [], none⟩, none⟩] [] ()).1.1.head? = some (some b) :=
  (check_condition_spec unitEngine).2.2.2.2.2.2.2 [] "d"
    ⟨⟨some "SELECT 1", none, [], [], none⟩, none⟩ [] [] () rfl

theorem alGet_initStorage_self (dbName : String) (g : SqlStorage) :
    alGet dbName (initStorage dbName g) = some ((alGet dbName g).getD []) := by
  unfold initStorage
  rcases h : alGet dbName g with _ | m
  · simp [h, alGet_alSet_self]
  · simp [h]

theorem alGet_initStorage_ne {dbName other : String} (g : SqlStorage) (h : other ≠ dbName) :
    alGet other (initStorage dbName g) = alGet other g := by
  unfold initStorage
  rcases h2 : alGet dbName g with _ | m
  · simp [alGet_alSet_ne _ _ h]
  · simp

theorem executeStatement_error_of_resolve {σ : Type} {eng : Engine σ} {stmt : HranaStatement}
    {storage : SqlStorage} {dbName : String} {s : σ} {m : String} {args : List NativeValue}
    (h1 : decodeArgs stmt.args = .ok args)
    (h2 : resolveSql storage dbName stmt = .error m) :
    executeStatement eng stmt storage dbName s = .error m := by
  unfold executeStatement
  rw [h1, h2]

theorem executeStatement_eq_runResolved {σ : Type} {eng : Engine σ} {stmt : HranaStatement}
    {storage : SqlStorage} {dbName : String} {s : σ} {sql : String} {args : List NativeValue}
    (h1 : decodeArgs stmt.args = .ok args)
    (h2 : resolveSql storage dbName stmt = .ok sql) :
    executeStatement eng stmt storage dbName s = runResolved eng sql args stmt.named_args s := by
  unfold executeStatement
  rw [h1, h2]

theorem resolveSql_ext {storage1 storage2 : SqlStorage} {dbName : String}
    (h : alGet dbName storage1 = alGet dbName storage2) (stmt : HranaStatement) :
    resolveSql storage1 dbName stmt = resolveSql storage2 dbName stmt := by
  unfold resolveSql
  rw [h]

/-- Claim C7 (amended) of the specification: a statement not routed to the multi-statement exec
path is prepared and run; when classified read it returns the fetched
rows encoded by the codec with columns from the first row key order
and zero affected count and null rowid, for positional and for named
binding; otherwise it is run for effect through the run call, for
positional and for named binding. -/
theorem read_write_path_spec {σ : Type} (eng : Engine σ) (stmt : HranaStatement)
    (storage : SqlStorage) (dbName sql : String) (s : σ) (args : List NativeValue) :
    (decodeArgs stmt.args = .ok args →
      resolveSql storage dbName stmt = .ok sql →
      stmt.named_args = [] →
      (hasMultipleStatements (jsTrim sql) && args.isEmpty) = false →
      isSelectSql (jsTrim sql) = true →
      executeStatement eng stmt storage dbName s
        = (eng.allPos sql args s).map (fun p => (readShape p.1, p.2))) ∧
    (∀ nargs : List (String × NativeValue),
      decodeArgs stmt.args = .ok args →
      resolveSql storage dbName stmt = .ok sql →
      stmt.named_args ≠ [] →
      decodeNamedArgs stmt.named_args = .ok nargs →
      isSelectSql (jsTrim sql) = true →
      executeStatement eng stmt storage dbName s
        = (eng.allNamed sql nargs s).map (fun p => (readShape p.1, p.2))) ∧
    (decodeArgs stmt.args = .ok args →
      resolveSql storage dbName stmt = .ok sql →
      stmt.named_args = [] →
      (hasMultipleStatements (jsTrim sql) && args.isEmpty) = false →
      isSelectSql (jsTrim sql) = false →
      executeStatement eng stmt storage dbName s
        = (eng.runPos sql args s).map (fun p => (writeShape p.1, p.2))) ∧
    (∀ nargs : List (String × NativeValue),
      decodeArgs stmt.args = .ok args →
      resolveSql storage dbName stmt = .ok sql →
      stmt.named_args ≠ [] →
      decodeNamedArgs stmt.named_args = .ok nargs →
      isSelectSql (jsTrim sql) = false →
      executeStatement eng stmt storage dbName s
        = (eng.runNamed sql nargs s).map (fun p => (writeShape p.1, p.2))) := by
  refine ⟨?_, ?_, ?_, ?_⟩
  · intro h1 h2 hn hc hsel
    rw [executeStatement_eq_runResolved h1 h2, hn]
    unfold runResolved
    simp [hc, hsel]
  · intro nargs h1 h2 hn hna hsel
    rw [executeStatement_eq_runResolved h1 h2]
    unfold runResolved
    have hne : stmt.named_args.isEmpty = false := by
      simpa [List.isEmpty_iff] using hn
    rw [hne]
    simp [hna, hsel]
  · intro h1 h2 hn hc hsel
    rw [executeStatement_eq_runResolved h1 h2, hn]
    unfold runResolved
    simp [hc, hsel]
  · intro nargs h1 h2 hn hna hsel
    rw [executeStatement_eq_runResolved h1 h2]
    unfold runResolved
    have hne : stmt.named_args.isEmpty = false := by
      simpa [List.isEmpty_iff] using hn
    rw [hne]
    simp [hna, hsel]

/-- Witness for the read path at a concrete single select. -/
theorem read_write_path_spec_witness :
    executeStatement selEngine ⟨some "SELECT 1", none, [], [], none⟩ [] "d" ()
      = (selEngine.allPos "SELECT 1" [] ()).map (fun p => (readShape p.1, p.2)) :=
  (read_write_path_spec selEngine ⟨some "SELECT 1", none, [], [], none⟩ [] "d"
    "SELECT 1" () []).1 rfl rfl rfl (by decide) (by decide)

/-- C7 counterexample: the statement SELECT 1; SELECT 2 is classified
read yet, being multi-statement with no parameters, it is routed to
the exec path and yields the empty shape instead of the fetched rows
of the engine, which would have one column named x. -/
theorem read_path_counterexample :
    isSelectSql (jsTrim "SELECT 1; SELECT 2") = true ∧
    selEngine.allPos "SELECT 1; SELECT 2" [] ()
      = .ok ([[("x", NativeValue.nBigint 1)]], ()) ∧
    executeStatement selEngine ⟨some "SELECT 1; SELECT 2", none, [], [], none⟩ [] "d" ()
      = .ok (emptyShape, ()) ∧
    executeStatement selEngine ⟨some "SELECT 1; SELECT 2", none, [], [], none⟩ [] "d" ()
      ≠ (selEngine.allPos "SELECT 1; SELECT 2" [] ()).map (fun p => (readShape p.1, p.2)) := by
  refine ⟨by decide, rfl, by decide, ?_⟩
  intro h
  rw [show executeStatement selEngine ⟨some "SELECT 1; SELECT 2", none, [], [], none⟩ [] "d" ()
    = .ok (emptyShape, ()) by decide] at h
  rw [show (selEngine.allPos "SELECT 1; SELECT 2" [] ()).map (fun p => (readShape p.1, p.2))
    = .ok (readShape [[("x", NativeValue.nBigint 1)]], ()) from rfl] at h
  have : emptyShape = readShape [[("x", NativeValue.nBigint 1)]] := by
    injection h with h2
    exact congrArg Prod.fst h2
  exact absurd this (by decide)

theorem resolveSql_literal {storage : SqlStorage} {dbName : String} {stmt : HranaStatement}
    {s : String} (h1 : stmt.sql = some s) (h2 : s ≠ "") :
    resolveSql storage dbName stmt = .ok s := by
  unfold resolveSql
  rw [h1]
  simp [h2]

theorem resolveSql_id_missing {storage : SqlStorage} {dbName : String} {stmt : HranaStatement}
    {i : Int} (h0 : stmt.sql = none) (h1 : stmt.sql_id = some i)
    (h : (alGet dbName storage).bind (alGet i) = none ∨
      (alGet dbName storage).bind (alGet i) = some "") :
    resolveSql storage dbName stmt = .error ("SQL with id " ++ toString i ++ " not found") := by
  have hred : resolveSql storage dbName stmt =
      (match alGet dbName storage with
      | some m =>
        match alGet i m with
        | some s =>
          if s = "" then Except.error ("SQL with id " ++ toString i ++ " not found")
          else Except.ok s
        | none => Except.error ("SQL with id " ++ toString i ++ " not found")
      | none => Except.error ("SQL with id " ++ toString i ++ " not found")) := by
    unfold resolveSql
    rw [h0, h1]
  rw [hred]
  rcases hg : alGet dbName storage with _ | m
  · rfl
  · rw [hg] at h
    simp only [Option.some_bind] at h
    rcases hgi : alGet i m with _ | s2
    · simp [hgi]
    · rw [hgi] at h
      rcases h with h | h
      · exact absurd h (by simp)
      · have hs2 : s2 = "" := by injection h
        subst hs2
        simp [hgi]

theorem getDb_sqlStorage {σ : Type} (eng : Engine σ) (dbName : String) (st : ServerState σ) :
    (getDb eng dbName st).2.sqlStorage = st.sqlStorage := by
  unfold getDb
  rcases h : alGet dbName st.dbCache with _ | v <;> simp [h]

theorem handle_store_state {σ : Type} (eng : Engine σ) (dbName : String) (i : Int)
    (s : String) (st : ServerState σ) :
    (handlePipelineRequest eng [.storeSql i s] dbName st).1.results = [.okStoreSql] ∧
    (handlePipelineRequest eng [.storeSql i s] dbName st).2.sqlStorage
      = alSet dbName (alSet i s ((alGet dbName st.sqlStorage).getD []))
          (initStorage dbName st.sqlStorage) ∧
    (handlePipelineRequest eng [.storeSql i s] dbName st).2.dbCache
      = alSet dbName (getDb eng dbName st).1 (getDb eng dbName st).2.dbCache := by
  refine ⟨rfl, ?_, rfl⟩
  show (processRequests eng dbName [.storeSql i s]
    ⟨initStorage dbName (getDb eng dbName st).2.sqlStorage,
     (alGet dbName (initStorage dbName (getDb eng dbName st).2.sqlStorage)).getD [],
     true, (getDb eng dbName st).1⟩).2.global = _
  rw [getDb_sqlStorage, alGet_initStorage_self]
  simp [processRequests, processOne]

theorem handle_close_state {σ : Type} (eng : Engine σ) (dbName : String) (st : ServerState σ) :
    (handlePipelineRequest eng [.close] dbName st).1.results = [.okClose] ∧
    (handlePipelineRequest eng [.close] dbName st).2.sqlStorage
      = alErase dbName (initStorage dbName st.sqlStorage) ∧
    (handlePipelineRequest eng [.close] dbName st).2.dbCache
      = alSet dbName (getDb eng dbName st).1 (getDb eng dbName st).2.dbCache := by
  refine ⟨rfl, ?_, rfl⟩
  show (processRequests eng dbName [.close]
    ⟨initStorage dbName (getDb eng dbName st).2.sqlStorage,
     (alGet dbName (initStorage dbName (getDb eng dbName st).2.sqlStorage)).getD [],
     true, (getDb eng dbName st).1⟩).2.global = _
  rw [getDb_sqlStorage]
  simp [processRequests, processOne]

theorem handle_execute_missing {σ : Type} (eng : Engine σ) (dbName : String) (i : Int)
    (st : ServerState σ)
    (hmiss : alGet i ((alGet dbName st.sqlStorage).getD []) = none) :
    (handlePipelineRequest eng
      [.execute (some ⟨none, some i, [], [], none⟩)] dbName st).1.results
      = [.errorResult ("SQL with id " ++ toString i ++ " not found")] := by
  have hres : resolveSql (initStorage dbName st.sqlStorage) dbName
      (⟨none, some i, [], [], none⟩ : HranaStatement)
      = .error ("SQL with id " ++ toString i ++ " not found") := by
    apply resolveSql_id_missing rfl rfl
    rw [alGet_initStorage_self]
    simp [hmiss]
  have hexec : executeStatement eng (⟨none, some i, [], [], none⟩ : HranaStatement)
      (initStorage dbName st.sqlStorage) dbName (getDb eng dbName st).1
      = .error ("SQL with id " ++ toString i ++ " not found") :=
    executeStatement_error_of_resolve
      (show decodeArgs ([] : List HranaValue) = .ok [] from rfl) hres
  show (processRequests eng dbName [.execute (some ⟨none, some i, [], [], none⟩)]
    ⟨initStorage dbName (getDb eng dbName st).2.sqlStorage,
     (alGet dbName (initStorage dbName (getDb eng dbName st).2.sqlStorage)).getD [],
     true, (getDb eng dbName st).1⟩).1 = _
  rw [getDb_sqlStorage]
  simp only [processRequests, processOne, hexec]
  rfl

theorem getDb_of_cached {σ : Type} (eng : Engine σ) {dbName : String} {st : ServerState σ}
    {v : σ} (h : alGet dbName st.dbCache = some v) : getDb eng dbName st = (v, st) := by
  unfold getDb
  rw [h]

theorem executeStatement_congr {σ : Type} (eng : Engine σ) {stmt1 stmt2 : HranaStatement}
    {st1 st2 : SqlStorage} {dbName : String} {s : σ}
    (hargs : stmt1.args = stmt2.args)
    (hnamed : stmt1.named_args = stmt2.named_args)
    (hres : resolveSql st1 dbName stmt1 = resolveSql st2 dbName stmt2) :
    executeStatement eng stmt1 st1 dbName s = executeStatement eng stmt2 st2 dbName s := by
  unfold executeStatement
  rw [hargs, hres, hnamed]

/-- Claim C2 (amended) of the specification: for every nonempty SQL text, a pipeline storing the
text under an id and executing by that id returns for the execute the
same result entry, ok or error alike, as a pipeline executing the
literal text directly from the same starting state. -/
theorem store_sql_execute_equiv {σ : Type} (eng : Engine σ) (dbName s : String) (i : Int)
    (a : List HranaValue) (na : List NamedArg) (w : Option Bool) (st : ServerState σ)
    (hs : s ≠ "") :
    (handlePipelineRequest eng
      [.storeSql i s, .execute (some ⟨none, some i, a, na, w⟩)] dbName st).1.results.get? 1
    = (handlePipelineRequest eng
      [.execute (some ⟨some s, none, a, na, w⟩)] dbName st).1.results.get? 0 := by
  unfold handlePipelineRequest
  simp only [processRequests, processOne, if_true, List.append_nil]
  set d := getDb eng dbName st with hd
  set g0 := initStorage dbName d.2.sqlStorage with hg0
  set lm0 := (alGet dbName g0).getD [] with hlm0
  have hres1 : resolveSql (alSet dbName (alSet i s lm0) g0) dbName
      (⟨none, some i, a, na, w⟩ : HranaStatement) = .ok s := by
    unfold resolveSql
    simp [alGet_alSet_self, hs]
  have hres2 : resolveSql g0 dbName (⟨some s, none, a, na, w⟩ : HranaStatement) = .ok s :=
    resolveSql_literal rfl hs
  have hboth : executeStatement eng (⟨none, some i, a, na, w⟩ : HranaStatement)
      (alSet dbName (alSet i s lm0) g0) dbName d.1
      = executeStatement eng (⟨some s, none, a, na, w⟩ : HranaStatement) g0 dbName d.1 :=
    executeStatement_congr eng rfl rfl (by rw [hres1, hres2])
  rw [hboth]
  rcases hE : executeStatement eng (⟨some s, none, a, na, w⟩ : HranaStatement) g0 dbName d.1
    with m | p
  · simp
  · simp

/-- Witness for the store then execute equivalence at a concrete text. -/
theorem store_sql_execute_equiv_witness :
    (handlePipelineRequest unitEngine
      [.storeSql 1 "SELECT 1", .execute (some ⟨none, some 1, [], [], none⟩)] "d"
      ⟨[], []⟩).1.results.get? 1
    = (handlePipelineRequest unitEngine
      [.execute (some ⟨some "SELECT 1", none, [], [], none⟩)] "d"
      ⟨[], []⟩).1.results.get? 0 :=
  store_sql_execute_equiv unitEngine "d" "SELECT 1" 1 [] [] none ⟨[], []⟩ (by decide)

/-- C2 counterexample: with the empty string as stored text the two
pipelines answer different error entries, id not found against no
statement provided, so the equivalence fails for the empty text. -/
theorem store_sql_execute_counterexample :
    (handlePipelineRequest unitEngine
      [.storeSql 1 "", .execute (some ⟨none, some 1, [], [], none⟩)] "d"
      ⟨[], []⟩).1.results.get? 1
    ≠ (handlePipelineRequest unitEngine
      [.execute (some ⟨some "", none, [], [], none⟩)] "d" ⟨[], []⟩).1.results.get? 0 := by
  decide

/-- Claim C3 of the specification: storing under database A changes nothing about the stored ids
of a different database B: the B entry of the storage is unchanged,
resolution against B is unchanged for every statement, and an execute
by id against B errors with the not-found message whenever B holds no
entry for that id. -/
theorem sql_id_per_database {σ : Type} (eng : Engine σ) (A B : String) (i : Int) (s : String)
    (st : ServerState σ) (hAB : A ≠ B) :
    (alGet B (handlePipelineRequest eng [.storeSql i s] A st).2.sqlStorage
      = alGet B st.sqlStorage) ∧
    (∀ stmt : HranaStatement,
      resolveSql (handlePipelineRequest eng [.storeSql i s] A st).2.sqlStorage B stmt
        = resolveSql st.sqlStorage B stmt) ∧
    (alGet i ((alGet B (handlePipelineRequest eng [.storeSql i s] A st).2.sqlStorage).getD [])
        = none →
      (handlePipelineRequest eng [.execute (some ⟨none, some i, [], [], none⟩)] B
        (handlePipelineRequest eng [.storeSql i s] A st).2).1.results
      = [.errorResult ("SQL with id " ++ toString i ++ " not found")]) := by
  have hstore := (handle_store_state eng A i s st).2.1
  have hB : alGet B (handlePipelineRequest eng [.storeSql i s] A st).2.sqlStorage
      = alGet B st.sqlStorage := by
    rw [hstore, alGet_alSet_ne _ _ (Ne.symm hAB), alGet_initStorage_ne _ (Ne.symm hAB)]
  refine ⟨hB, fun stmt => resolveSql_ext hB stmt, ?_⟩
  intro hmiss
  exact handle_execute_missing eng B i _ hmiss

/-- Witness for per-database isolation at concrete names. -/
theorem sql_id_per_database_witness :
    (handlePipelineRequest unitEngine [.execute (some ⟨none, some 1, [], [], none⟩)] "b"
      (handlePipelineRequest unitEngine [.storeSql 1 "SELECT 1"] "a" ⟨[], []⟩).2).1.results
    = [.errorResult ("SQL with id " ++ toString (1 : Int) ++ " not found")] :=
  (sql_id_per_database unitEngine "a" "b" 1 "SELECT 1" ⟨[], []⟩ (by decide)).2.2 (by rfl)

/-- Claim C4 of the specification: a close pipeline for database A appends the ok entry and
clears only the A mapping: A resolves to nothing afterwards, the B
mapping is untouched, the cache of open handles is unchanged (the A
handle stays open), and a subsequent pipeline on A referencing the
previously stored id fails with the not-found error. -/
theorem close_clears_only_own_db {σ : Type} (eng : Engine σ) (A B : String) (i : Int)
    (s : String) (st : ServerState σ) (hAB : B ≠ A) (hnd : keysNodup st.sqlStorage) :
    ∀ sta : ServerState σ, sta = (handlePipelineRequest eng [.storeSql i s] A st).2 →
    ∀ stb : ServerState σ, stb = (handlePipelineRequest eng [.close] A sta).2 →
    ((handlePipelineRequest eng [.close] A sta).1.results = [.okClose]) ∧
    (alGet A stb.sqlStorage = none) ∧
    (alGet B stb.sqlStorage = alGet B sta.sqlStorage) ∧
    (stb.dbCache = sta.dbCache) ∧
    ((handlePipelineRequest eng [.execute (some ⟨none, some i, [], [], none⟩)] A stb).1.results
      = [.errorResult ("SQL with id " ++ toString i ++ " not found")]) := by
  intro sta hsta stb hstb
  have hstore := handle_store_state eng A i s st
  have hclose := handle_close_state eng A sta
  have hnd0 : keysNodup (initStorage A st.sqlStorage) := by
    unfold initStorage
    rcases h : alGet A st.sqlStorage with _ | m
    · simpa using keysNodup_alSet A ([] : SqlMap) st.sqlStorage hnd
    · simpa using hnd
  have hnd1 : keysNodup sta.sqlStorage := by
    rw [hsta, hstore.2.1]
    exact keysNodup_alSet _ _ _ hnd0
  have hApresent : alGet A sta.sqlStorage
      = some (alSet i s ((alGet A st.sqlStorage).getD [])) := by
    rw [hsta, hstore.2.1, alGet_alSet_self]
  have hinit : initStorage A sta.sqlStorage = sta.sqlStorage := by
    unfold initStorage
    rw [hApresent]
    simp
  have hstb_storage : stb.sqlStorage = alErase A sta.sqlStorage := by
    rw [hstb, hclose.2.1, hinit]
  refine ⟨hclose.1, ?_, ?_, ?_, ?_⟩
  · rw [hstb_storage]
    exact alGet_alErase_self A _ hnd1
  · rw [hstb_storage]
    exact alGet_alErase_ne _ hAB
  · have hcache_a : alGet A sta.dbCache = some ((getDb eng A st).1) := by
      rw [hsta, hstore.2.2, alGet_alSet_self]
    have hgetdb : getDb eng A sta = ((getDb eng A st).1, sta) :=
      getDb_of_cached eng hcache_a
    rw [hstb, hclose.2.2, hgetdb]
    exact alSet_self_of_get hcache_a
  · apply handle_execute_missing
    rw [hstb_storage, alGet_alErase_self A _ hnd1]
    rfl

/-- Witness for the close behaviour at concrete names. -/
theorem close_clears_only_own_db_witness :
    (alGet "a" ((handlePipelineRequest unitEngine [.close] "a"
      (handlePipelineRequest unitEngine [.storeSql 1 "SELECT 1"] "a" ⟨[], []⟩).2).2.sqlStorage)
      = none) ∧
    ((handlePipelineRequest unitEngine [.execute (some ⟨none, some 1, [], [], none⟩)] "a"
      (handlePipelineRequest unitEngine [.close] "a"
        (handlePipelineRequest unitEngine [.storeSql 1 "SELECT 1"] "a" ⟨[], []⟩).2).2).1.results
      = [.errorResult ("SQL with id " ++ toString (1 : Int) ++ " not found")]) := by
  have h := close_clears_only_own_db unitEngine "a" "b" 1 "SELECT 1" ⟨[], []⟩ (by decide)
    (by simp [keysNodup]) _ rfl _ rfl
  exact ⟨h.2.1, h.2.2.2.2⟩

/-- Claim C9 of the specification: failures are isolated: the handler always answers with null
baton and null base url; processing distributes over concatenation, so
a failing request never stops later requests; a failing execute
appends exactly one error entry carrying the failure message and
leaves the loop state unchanged; and in a batch the three arrays are
index aligned with the steps and an error slot is non-null exactly
when the result slot is null and the step was not skipped. -/
theorem pipeline_error_isolation {σ : Type} (eng : Engine σ) (dbName : String) :
    (∀ (reqs : List HranaRequest) (st : ServerState σ),
      (handlePipelineRequest eng reqs dbName st).1.baton = none ∧
      (handlePipelineRequest eng reqs dbName st).1.base_url = none) ∧
    (∀ (rs1 rs2 : List HranaRequest) (ls : LoopState σ),
      processRequests eng dbName (rs1 ++ rs2) ls
        = ((processRequests eng dbName rs1 ls).1
            ++ (processRequests eng dbName rs2 (processRequests eng dbName rs1 ls).2).1,
           (processRequests eng dbName rs2 (processRequests eng dbName rs1 ls).2).2)) ∧
    (∀ (stmt : HranaStatement) (ls : LoopState σ) (m : String),
      executeStatement eng stmt ls.global dbName ls.dbState = .error m →
      processOne eng dbName ls (.execute (some stmt)) = ([.errorResult m], ls)) ∧
    (∀ (steps : List HranaBatchStep) (prior : List (Option Bool)) (s : σ)
      (storage : SqlStorage),
      ((runBatchAux eng storage dbName steps prior s).1.1.length = steps.length ∧
       (runBatchAux eng storage dbName steps prior s).1.2.1.length = steps.length ∧
       (runBatchAux eng storage dbName steps prior s).1.2.2.length = steps.length) ∧
      (∀ j : Nat,
        ((runBatchAux eng storage dbName steps prior s).1.2.2.getD j none).isSome ↔
          (j < steps.length ∧
           (runBatchAux eng storage dbName steps prior s).1.2.1.getD j none = none ∧
           (runBatchAux eng storage dbName steps prior s).1.1.getD j none ≠ none))) := by
  refine ⟨fun reqs st => ⟨rfl, rfl⟩, ?_, ?_, ?_⟩
  · intro rs1
    induction rs1 with
    | nil => intro rs2 ls; rfl
    | cons r rs ih =>
      intro rs2 ls
      simp only [List.cons_append, processRequests, List.append_eq, ih, List.append_assoc]
  · intro stmt ls m h
    simp only [processOne, h]
  · intro steps
    induction steps with
    | nil =>
      intro prior s storage
      refine ⟨⟨rfl, rfl, rfl⟩, ?_⟩
      intro j
      simp [runBatchAux]
    | cons step rest ih =>
      intro prior s storage
      by_cases hc : checkCondition step.condition prior = true
      · rcases hex : executeStatement eng step.stmt storage dbName s with m | p
        · have hred : runBatchAux eng storage dbName (step :: rest) prior s
              = ((some false
                    :: (runBatchAux eng storage dbName rest (prior ++ [some false]) s).1.1,
                  none
                    :: (runBatchAux eng storage dbName rest (prior ++ [some false]) s).1.2.1,
                  some m
                    :: (runBatchAux eng storage dbName rest (prior ++ [some false]) s).1.2.2),
                 (runBatchAux eng storage dbName rest (prior ++ [some false]) s).2) := by
            simp only [runBatchAux]
            rw [if_pos hc, hex]
          rw [hred]
          obtain ⟨⟨l1, l2, l3⟩, hj⟩ := ih (prior ++ [some false]) s storage
          refine ⟨⟨by simp [l1], by simp [l2], by simp [l3]⟩, ?_⟩
          intro j
          cases j with
          | zero => simp
          | succ j2 =>
            simp only [List.getD_cons_succ, List.length_cons]
            rw [hj j2]
            constructor
            · rintro ⟨h1, h2, h3⟩
              exact ⟨by omega, h2, h3⟩
            · rintro ⟨h1, h2, h3⟩
              exact ⟨by omega, h2, h3⟩
        · obtain ⟨r, s1⟩ := p
          have hred : runBatchAux eng storage dbName (step :: rest) prior s
              = ((some true
                    :: (runBatchAux eng storage dbName rest (prior ++ [some true]) s1).1.1,
                  some r
                    :: (runBatchAux eng storage dbName rest (prior ++ [some true]) s1).1.2.1,
                  none
                    :: (runBatchAux eng storage dbName rest (prior ++ [some true]) s1).1.2.2),
                 (runBatchAux eng storage dbName rest (prior ++ [some true]) s1).2) := by
            simp only [runBatchAux]
            rw [if_pos hc, hex]
          rw [hred]
          obtain ⟨⟨l1, l2, l3⟩, hj⟩ := ih (prior ++ [some true]) s1 storage
          refine ⟨⟨by simp [l1], by simp [l2], by simp [l3]⟩, ?_⟩
          intro j
          cases j with
          | zero => simp
          | succ j2 =>
            simp only [List.getD_cons_succ, List.length_cons]
            rw [hj j2]
            constructor
            · rintro ⟨h1, h2, h3⟩
              exact ⟨by omega, h2, h3⟩
            · rintro ⟨h1, h2, h3⟩
              exact ⟨by omega, h2, h3⟩
      · have hred : runBatchAux eng storage dbName (step :: rest) prior s
            = ((none :: (runBatchAux eng storage dbName rest (prior ++ [none]) s).1.1,
                none :: (runBatchAux eng storage dbName rest (prior ++ [none]) s).1.2.1,
                none :: (runBatchAux eng storage dbName rest (prior ++ [none]) s).1.2.2),
               (runBatchAux eng storage dbName rest (prior ++ [none]) s).2) := by
          simp only [runBatchAux]
          rw [if_neg hc]
        rw [hred]
        obtain ⟨⟨l1, l2, l3⟩, hj⟩ := ih (prior ++ [none]) s storage
        refine ⟨⟨by simp [l1], by simp [l2], by simp [l3]⟩, ?_⟩
        intro j
        cases j with
        | zero => simp
        | succ j2 =>
          simp only [List.getD_cons_succ, List.length_cons]
          rw [hj j2]
          constructor
          · rintro ⟨h1, h2, h3⟩
            exact ⟨by omega, h2, h3⟩
          · rintro ⟨h1, h2, h3⟩
            exact ⟨by omega, h2, h3⟩

/-- Witness for error isolation: an execute without any SQL yields
exactly one error entry and processing state is unchanged. -/
theorem pipeline_error_isolation_witness :
    processOne unitEngine "d" ⟨[], [], true, ()⟩
      (.execute (some ⟨none, none, [], [], none⟩))
    = ([.errorResult "No SQL statement provided"], ⟨[], [], true, ()⟩) :=
  (pipeline_error_isolation unitEngine "d").2.2.1 ⟨none, none, [], [], none⟩
    ⟨[], [], true, ()⟩ "No SQL statement provided" rfl

/-- Claim C10 of the specification: the handler appends exactly one result entry for a store-sql,
a close, an execute with a statement or a batch with a payload, and
none for any other request, so the results array length is the count
of handled requests. -/
theorem results_per_handled_request {σ : Type} (eng : Engine σ) (dbName : String) :
    (∀ (ls : LoopState σ) (r : HranaRequest),
      (processOne eng dbName ls r).1.length = (if isHandledRequest r then 1 else 0)) ∧
    (∀ (reqs : List HranaRequest) (st : ServerState σ),
      (handlePipelineRequest eng reqs dbName st).1.results.length
        = (reqs.filter isHandledRequest).length) := by
  have hone : ∀ (ls : LoopState σ) (r : HranaRequest),
      (processOne eng dbName ls r).1.length = (if isHandledRequest r then 1 else 0) := by
    intro ls r
    cases r with
    | storeSql i s => rfl
    | execute o =>
      cases o with
      | none => rfl
      | some stmt =>
        rcases h : executeStatement eng stmt ls.global dbName ls.dbState with m | p
        · simp [processOne, isHandledRequest, h]
        · simp [processOne, isHandledRequest, h]
    | batch o => cases o <;> rfl
    | close => rfl
    | unknownReq k => rfl
  have hlen : ∀ (rs : List HranaRequest) (ls : LoopState σ),
      (processRequests eng dbName rs ls).1.length = (rs.filter isHandledRequest).length := by
    intro rs
    induction rs with
    | nil => intro ls; rfl
    | cons r rs2 ih =>
      intro ls
      simp only [processRequests, List.length_append, hone, ih, List.filter_cons]
      cases hr : isHandledRequest r
      · simp [hr]
      · simp [hr]
        omega
  exact ⟨hone, fun reqs st => hlen reqs _⟩
